import Mathlib

/-!
Shallow embedding of the mandy HTTP request execution engine
(src-tauri/src/helpers/rest.rs, src-tauri/src/types.rs, and the
reqwest-based variant in src-tauri/src/lib.rs).

Conventions of the embedding:
- Rust strings are modelled as `List Char` (abbreviated `Str`); byte
  buffers as `List Nat` (each element a byte value).  String literals
  are written as `"...".toList`.
- The external libraries the engine calls are modelled as explicit
  parameters: the url crate as a `UrlLib` record, libcurl's transfer as
  a `Transport` record (its configuration captured in a `CurlConfig`
  value), serde_json's parse as a boolean oracle on the body bytes, and
  the clock read by `uuid_simple` as a `(secs, nanos)` pair.
- Rust's floating-point timing values are modelled as rationals.
- Rust's `as u32` / `as u16` casts are modelled by explicit reduction
  modulo 2^32 / 2^16.
-/

/-- Rust strings are modelled as lists of characters. -/
abbrev Str := List Char

/-- ASCII whitespace test used by the `trim` model (the Rust source
trims Unicode whitespace; all whitespace relevant to this engine's
headers is ASCII). -/
def isWsChar (c : Char) : Bool :=
  c = ' ' || c = '\t' || c = '\n' || c = '\r'

/-- Model of Rust str::trim. -/
def trimStr (s : Str) : Str :=
  ((s.dropWhile isWsChar).reverse.dropWhile isWsChar).reverse

/-- Model of Rust str::trim_start. -/
def trimStart (s : Str) : Str := s.dropWhile isWsChar

/-- Model of Rust str::to_lowercase (ASCII range; the engine only
lowercases header and attribute names). -/
def lowerStr (s : Str) : Str := s.map Char.toLower

/-- Accumulator-passing worker for splitting a string at a separator. -/
def splitOnCharAux (sep : Char) : Str → Str → List Str
  | [], cur => [cur.reverse]
  | c :: rest, cur =>
    if c = sep then cur.reverse :: splitOnCharAux sep rest []
    else splitOnCharAux sep rest (c :: cur)

/-- Model of Rust str::split(sep) collected into a vector: splits at
every occurrence of the separator, keeping empty pieces. -/
def splitOnChar (sep : Char) (s : Str) : List Str := splitOnCharAux sep s []

/-- Model of Rust str::split_once(sep): the pieces before and after the
first occurrence of the separator, or none if it does not occur. -/
def splitFirst (sep : Char) : Str → Option (Str × Str)
  | [] => none
  | c :: rest =>
    if c = sep then some ([], rest)
    else (splitFirst sep rest).map (fun p => (c :: p.1, p.2))

/-- Model of Rust str::splitn(n, sep) collected into a vector: at most
n pieces, the last piece keeping any further separators. -/
def splitNChar (n : Nat) (sep : Char) (s : Str) : List Str :=
  match n with
  | 0 => [s]
  | 1 => [s]
  | m + 2 =>
    match splitFirst sep s with
    | none => [s]
    | some (a, b) => a :: splitNChar (m + 1) sep b

/-- Model of Rust str::starts_with for string patterns (first argument
the string, second the pattern). -/
def startsWithStr : Str → Str → Bool
  | _, [] => true
  | [], _ :: _ => false
  | c :: s, d :: p => c = d && startsWithStr s p

/-- Model of byte-slice starts_with (first argument the buffer, second
the pattern). -/
def startsWithBytes : List Nat → List Nat → Bool
  | _, [] => true
  | [], _ :: _ => false
  | b :: s, d :: p => b = d && startsWithBytes s p

/-- Model of Rust str::contains for string patterns (first argument the
string, second the pattern). -/
def strContains : Str → Str → Bool
  | [], p => startsWithStr [] p
  | c :: rest, p => startsWithStr (c :: rest) p || strContains rest p

/-- Joining a list of strings with a separator, as Vec::join does. -/
def joinSep (sep : Str) : List Str → Str
  | [] => []
  | [v] => v
  | v :: w :: vs => v ++ sep ++ joinSep sep (w :: vs)

/-- Strip one trailing carriage return, as Rust str::lines does on each
line. -/
def stripCr (s : Str) : Str :=
  if s.getLast? = some '\r' then s.dropLast else s

/-- Model of Rust str::lines collected into a vector: split at newline
characters, with a final line ending optional and trailing carriage
returns removed. -/
def rustLines (s : Str) : List Str :=
  if s = [] then []
  else
    let pieces := splitOnChar '\n' s
    let pieces := if pieces.getLast? = some [] then pieces.dropLast else pieces
    pieces.map stripCr

/-- Lowercase hexadecimal digit for a value below 16. -/
def hexDigit (n : Nat) : Char :=
  if n < 10 then Char.ofNat (48 + n) else Char.ofNat (87 + n)

/-- Uppercase hexadecimal digit for a value below 16. -/
def hexDigitUpper (n : Nat) : Char :=
  if n < 10 then Char.ofNat (48 + n) else Char.ofNat (55 + n)

/-- Digits of a positive number in lowercase hex, most significant
first (empty for zero); fuel-based structural recursion, with fuel at
least the digit count. -/
def natToHexAux : Nat → Nat → Str
  | 0, _ => []
  | fuel + 1, n =>
    if n = 0 then [] else natToHexAux fuel (n / 16) ++ [hexDigit (n % 16)]

/-- Model of Rust's lowercase-hex formatting of an unsigned integer. -/
def natToHex (n : Nat) : Str := if n = 0 then ['0'] else natToHexAux n n

/-- Digits of a positive number in decimal, most significant first
(empty for zero); fuel-based structural recursion. -/
def natToDecAux : Nat → Nat → Str
  | 0, _ => []
  | fuel + 1, n =>
    if n = 0 then [] else natToDecAux fuel (n / 10) ++ [Char.ofNat (48 + n % 10)]

/-- Model of Rust's decimal formatting of an unsigned integer. -/
def natToDec (n : Nat) : Str := if n = 0 then ['0'] else natToDecAux n n

/-- UTF-8 encoding of one character, as a list of byte values. -/
def utf8EncodeCharN (c : Char) : List Nat :=
  let n := c.toNat
  if n < 128 then [n]
  else if n < 2048 then [192 + n / 64, 128 + n % 64]
  else if n < 65536 then [224 + n / 4096, 128 + (n / 64) % 64, 128 + n % 64]
  else [240 + n / 262144, 128 + (n / 4096) % 64, 128 + (n / 64) % 64, 128 + n % 64]

/-- UTF-8 byte encoding of a string, as Rust str::as_bytes /
String::into_bytes produce. -/
def utf8Bytes (s : Str) : List Nat := (s.map utf8EncodeCharN).flatten

/-- Continuation-byte test for the UTF-8 decoder. -/
def isUtf8Cont (b : Nat) : Bool := 128 ≤ b && b < 192

/-- Model of Rust String::from_utf8_lossy: decode UTF-8, replacing each
maximal invalid subpart with U+FFFD. -/
def utf8Lossy : List Nat → Str
  | [] => []
  | b :: bs =>
    if b < 128 then Char.ofNat b :: utf8Lossy bs
    else if 194 ≤ b && b ≤ 223 then
      match hb : bs with
      | [] => ['�']
      | b2 :: bs2 =>
        if isUtf8Cont b2 then Char.ofNat ((b - 192) * 64 + (b2 - 128)) :: utf8Lossy bs2
        else '�' :: utf8Lossy bs
    else if 224 ≤ b && b ≤ 239 then
      match hb : bs with
      | [] => ['�']
      | b2 :: bs2 =>
        if (if b = 224 then 160 ≤ b2 && b2 ≤ 191
            else if b = 237 then 128 ≤ b2 && b2 ≤ 159
            else isUtf8Cont b2) then
          match hb2 : bs2 with
          | [] => '�' :: []
          | b3 :: bs3 =>
            if isUtf8Cont b3 then
              Char.ofNat ((b - 224) * 4096 + (b2 - 128) * 64 + (b3 - 128)) :: utf8Lossy bs3
            else '�' :: utf8Lossy bs2
        else '�' :: utf8Lossy bs
    else if 240 ≤ b && b ≤ 244 then
      match hb : bs with
      | [] => ['�']
      | b2 :: bs2 =>
        if (if b = 240 then 144 ≤ b2 && b2 ≤ 191
            else if b = 244 then 128 ≤ b2 && b2 ≤ 143
            else isUtf8Cont b2) then
          match hb2 : bs2 with
          | [] => '�' :: []
          | b3 :: bs3 =>
            if isUtf8Cont b3 then
              match hb3 : bs3 with
              | [] => '�' :: []
              | b4 :: bs4 =>
                if isUtf8Cont b4 then
                  Char.ofNat ((b - 240) * 262144 + (b2 - 128) * 4096 +
                    (b3 - 128) * 64 + (b4 - 128)) :: utf8Lossy bs4
                else '�' :: utf8Lossy bs3
            else '�' :: utf8Lossy bs2
        else '�' :: utf8Lossy bs
    else '�' :: utf8Lossy bs
termination_by l => l.length
decreasing_by all_goals subst_vars <;> simp only [List.length_cons] <;> omega

/-- Base64 alphabet character for a value below 64. -/
def b64Char (n : Nat) : Char :=
  if n < 26 then Char.ofNat (65 + n)
  else if n < 52 then Char.ofNat (71 + n)
  else if n < 62 then Char.ofNat (n - 4)
  else if n = 62 then '+' else '/'

/-- Standard base64 encoding with padding, as the base64 crate's
STANDARD engine produces. -/
def base64Encode : List Nat → Str
  | [] => []
  | [b1] => [b64Char (b1 / 4), b64Char (b1 % 4 * 16), '=', '=']
  | [b1, b2] => [b64Char (b1 / 4), b64Char (b1 % 4 * 16 + b2 / 16), b64Char (b2 % 16 * 4), '=']
  | b1 :: b2 :: b3 :: rest =>
    [b64Char (b1 / 4), b64Char (b1 % 4 * 16 + b2 / 16),
     b64Char (b2 % 16 * 4 + b3 / 64), b64Char (b3 % 64)] ++ base64Encode rest

/-! Data model, from src-tauri/src/types.rs. -/

/-- HTTP methods supported by the curl-based engine (types.rs). -/
inductive Methods where
  | GET | POST | PUT | DELETE | PATCH | HEAD | OPTIONS | TRACE | CONNECT
deriving DecidableEq

/-- Placement of an API key credential (types.rs). -/
inductive ApiKeyLocation where
  | Header | Query
deriving DecidableEq

/-- Authentication variants (types.rs). -/
inductive AuthType where
  | None : AuthType
  | Basic (username password : Str)
  | Bearer (token : Str)
  | ApiKey (key value : Str) (add_to : ApiKeyLocation)
deriving DecidableEq

/-- Value of one multipart field (types.rs). -/
inductive MultipartValue where
  | Text (text : Str)
  | File (data : List Nat) (filename : Str) (content_type : Option Str)
deriving DecidableEq

/-- One multipart field (types.rs). -/
structure MultipartField where
  name : Str
  value : MultipartValue
deriving DecidableEq

/-- Request body variants (types.rs). -/
inductive BodyType where
  | None : BodyType
  | Raw (content : Str) (content_type : Option Str)
  | FormUrlEncoded (fields : List (Str × Str))
  | Multipart (fields : List MultipartField)
  | Binary (data : List Nat) (filename : Option Str)
deriving DecidableEq

/-- Cookie value type (types.rs). -/
structure Cookie where
  name : Str
  value : Str
  domain : Option Str
  path : Option Str
  expires : Option Str
  http_only : Option Bool
  secure : Option Bool
deriving DecidableEq

/-- Proxy configuration (types.rs). -/
structure ProxyConfig where
  url : Str
  username : Option Str
  password : Option Str
deriving DecidableEq

/-- Protocol hint carried by the request model (types.rs). -/
inductive HttpProtocol where
  | Tcp | Quic
deriving DecidableEq

/-- The request model (types.rs).  The Rust headers and query_params
fields are HashMaps; they are modelled as association lists whose order
stands for one iteration order of the map. -/
structure ApiRequest where
  method : Methods
  url : Str
  headers : List (Str × Str)
  body : BodyType
  auth : AuthType
  query_params : List (Str × Str)
  cookies : List Cookie
  timeout_ms : Option Nat
  follow_redirects : Option Bool
  max_redirects : Option Nat
  verify_ssl : Option Bool
  proxy : Option ProxyConfig
  protocol : Option HttpProtocol
deriving DecidableEq

/-- Renderer capability tags (types.rs). -/
inductive ResponseRenderer where
  | Raw | Json | Xml | Html | HtmlPreview | Image | Audio | Video | Pdf
deriving DecidableEq

/-- One redirect hop (types.rs). -/
structure RedirectEntry where
  url : Str
  status : Nat
deriving DecidableEq

/-- Timing breakdown in milliseconds (types.rs; f64 fields modelled as
rationals). -/
structure TimingInfo where
  total_ms : ℚ
  dns_lookup_ms : ℚ
  tcp_handshake_ms : ℚ
  tls_handshake_ms : ℚ
  transfer_start_ms : ℚ
  ttfb_ms : ℚ
  content_download_ms : ℚ
deriving DecidableEq

/-- Size accounting (types.rs; u32 fields modelled as naturals reduced
modulo 2^32 where the source casts). -/
structure SizeInfo where
  headers_bytes : Nat
  body_bytes : Nat
  total_bytes : Nat
deriving DecidableEq

/-- The response model (types.rs).  The Rust headers HashMap is
modelled as an association list in insertion order. -/
structure ApiResponse where
  status : Nat
  status_text : Str
  headers : List (Str × Str)
  cookies : List Cookie
  body_base64 : Str
  timing : TimingInfo
  request_size : SizeInfo
  response_size : SizeInfo
  redirects : List RedirectEntry
  remote_addr : Option Str
  http_version : Str
  available_renderers : List ResponseRenderer
  detected_content_type : Option Str
  protocol_used : Str
  error : Option Str
deriving DecidableEq

/-! Engine functions, from src-tauri/src/helpers/rest.rs. -/

/-- Model of method_to_curl_string (rest.rs). -/
def method_to_curl_string : Methods → Str
  | .GET => "GET".toList
  | .POST => "POST".toList
  | .PUT => "PUT".toList
  | .DELETE => "DELETE".toList
  | .PATCH => "PATCH".toList
  | .HEAD => "HEAD".toList
  | .OPTIONS => "OPTIONS".toList
  | .TRACE => "TRACE".toList
  | .CONNECT => "CONNECT".toList

/-- JSON block of detect_renderers (rest.rs lines 32 to 40): the
renderers pushed by the JSON branch, as a list appended where the
source pushes. -/
def jsonPush (jsonOk : List Nat → Bool) (ct : Str) (body : List Nat) :
    List ResponseRenderer :=
  if strContains ct ("application/json".toList) || strContains ct ("+json".toList) then
    if jsonOk body then [ResponseRenderer.Json] else []
  else if startsWithBytes body [123] || startsWithBytes body [91] then
    if jsonOk body then [ResponseRenderer.Json] else []
  else []

/-- Markup block of detect_renderers (rest.rs lines 42 to 61): the
renderers pushed by the HTML / XML / sniffing branch. -/
def markupPush (ct : Str) (body : List Nat) : List ResponseRenderer :=
  let is_html_content_type :=
    strContains ct ("text/html".toList) || strContains ct ("application/xhtml".toList)
  let is_xml_content_type :=
    strContains ct ("application/xml".toList) || strContains ct ("text/xml".toList) ||
      strContains ct ("+xml".toList)
  if is_html_content_type then [ResponseRenderer.Html, ResponseRenderer.HtmlPreview]
  else if is_xml_content_type then [ResponseRenderer.Xml]
  else if !is_html_content_type && !is_xml_content_type then
    let body_str := utf8Lossy body
    if startsWithStr (trimStart body_str) ("<?xml".toList) then [ResponseRenderer.Xml]
    else if startsWithStr (trimStart body_str) ("<!DOCTYPE html".toList) ||
        startsWithStr (trimStart body_str) ("<html".toList) then
      [ResponseRenderer.Html, ResponseRenderer.HtmlPreview]
    else []
  else []

/-- Image block of detect_renderers (rest.rs lines 63 to 72). -/
def imagePush (ct : Str) : List ResponseRenderer :=
  if strContains ct ("image/png".toList) || strContains ct ("image/jpeg".toList) ||
      strContains ct ("image/gif".toList) || strContains ct ("image/webp".toList) ||
      strContains ct ("image/svg".toList) || strContains ct ("image/bmp".toList) ||
      strContains ct ("image/ico".toList) then
    [ResponseRenderer.Image]
  else []

/-- PDF block of detect_renderers (rest.rs lines 74 to 76). -/
def pdfPush (ct : Str) : List ResponseRenderer :=
  if strContains ct ("application/pdf".toList) then [ResponseRenderer.Pdf] else []

/-- Audio block of detect_renderers (rest.rs lines 78 to 80). -/
def audioPush (ct : Str) : List ResponseRenderer :=
  if strContains ct ("audio/".toList) then [ResponseRenderer.Audio] else []

/-- Video block of detect_renderers (rest.rs lines 82 to 84). -/
def videoPush (ct : Str) : List ResponseRenderer :=
  if strContains ct ("video/".toList) then [ResponseRenderer.Video] else []

/-- Model of detect_renderers (rest.rs).  The serde_json parse of the
body is the external oracle jsonOk.  The source starts from vec![Raw]
and conditionally pushes further tags in a fixed order; each
conditional push sequence is modelled as an appended block at the same
point in that order. -/
def detect_renderers (jsonOk : List Nat → Bool) (content_type : Option Str)
    (body : List Nat) : List ResponseRenderer :=
  let ct := lowerStr (content_type.getD [])
  [ResponseRenderer.Raw] ++ jsonPush jsonOk ct body ++ markupPush ct body ++
    imagePush ct ++ pdfPush ct ++ audioPush ct ++ videoPush ct

/-- Attribute-application step of parse_set_cookie's loop body
(rest.rs): one iteration over one attribute part after the first. -/
def applyCookieAttr (cookie : Cookie) (part : Str) : Cookie :=
  let attr := splitFirst '=' part
  let attr_name := lowerStr (trimStr (match attr with
    | some p => p.1
    | none => part))
  let attr_value := match attr with
    | some p => some (trimStr p.2)
    | none => none
  if attr_name = "domain".toList then { cookie with domain := attr_value }
  else if attr_name = "path".toList then { cookie with path := attr_value }
  else if attr_name = "expires".toList then { cookie with expires := attr_value }
  else if attr_name = "httponly".toList then { cookie with http_only := some true }
  else if attr_name = "secure".toList then { cookie with secure := some true }
  else cookie

/-- Model of parse_set_cookie (rest.rs): split the header value on
semicolons; the first piece must be a name=value pair (otherwise the
line is dropped); remaining pieces set optional attributes. -/
def parse_set_cookie (header_value : Str) : Option Cookie :=
  let parts := splitOnChar ';' header_value
  match parts with
  | [] => none
  | p0 :: rest =>
    match splitFirst '=' p0 with
    | none => none
    | some (n, v) =>
      some (rest.foldl applyCookieAttr
        { name := trimStr n, value := trimStr v, domain := none, path := none,
          expires := none, http_only := none, secure := none })

/-- Model of build_cookie_header (rest.rs). -/
def build_cookie_header (cookies : List Cookie) : Str :=
  joinSep ("; ".toList) (cookies.map (fun c => c.name ++ "=".toList ++ c.value))

/-- Model of status_text (rest.rs). -/
def status_text : Nat → Str
  | 100 => "Continue".toList
  | 101 => "Switching Protocols".toList
  | 200 => "OK".toList
  | 201 => "Created".toList
  | 202 => "Accepted".toList
  | 204 => "No Content".toList
  | 206 => "Partial Content".toList
  | 301 => "Moved Permanently".toList
  | 302 => "Found".toList
  | 303 => "See Other".toList
  | 304 => "Not Modified".toList
  | 307 => "Temporary Redirect".toList
  | 308 => "Permanent Redirect".toList
  | 400 => "Bad Request".toList
  | 401 => "Unauthorized".toList
  | 403 => "Forbidden".toList
  | 404 => "Not Found".toList
  | 405 => "Method Not Allowed".toList
  | 408 => "Request Timeout".toList
  | 409 => "Conflict".toList
  | 410 => "Gone".toList
  | 413 => "Payload Too Large".toList
  | 414 => "URI Too Long".toList
  | 415 => "Unsupported Media Type".toList
  | 422 => "Unprocessable Entity".toList
  | 429 => "Too Many Requests".toList
  | 500 => "Internal Server Error".toList
  | 501 => "Not Implemented".toList
  | 502 => "Bad Gateway".toList
  | 503 => "Service Unavailable".toList
  | 504 => "Gateway Timeout".toList
  | s => "Status ".toList ++ natToDec s

/-- Interface of the url crate as the engine uses it: parse a base URL,
append percent-encoded query pairs, re-serialize.  U is the crate's
parsed-URL type. -/
structure UrlLib (U : Type) where
  parse : Str → Except Str U
  appendPair : U → Str → Str → U
  render : U → Str

/-- Model of build_url_with_params (rest.rs): parse the base URL
(mapping a parse failure to an error message with the fixed
"Invalid URL: " prefix), append every query pair and then the optional
api-key pair, and re-serialize. -/
def build_url_with_params {U : Type} (L : UrlLib U) (base_url : Str)
    (params : List (Str × Str)) (api_key_param : Option (Str × Str)) :
    Except Str Str :=
  match L.parse base_url with
  | .error e => .error ("Invalid URL: ".toList ++ e)
  | .ok u =>
    let u := params.foldl (fun u kv => L.appendPair u kv.1 kv.2) u
    let u := match api_key_param with
      | some kv => L.appendPair u kv.1 kv.2
      | none => u
    .ok (L.render u)

/-- Failure value produced by a curl transfer: the category flags the
curl crate exposes on curl::Error, plus its Display string. -/
structure CurlErr where
  is_couldnt_resolve_host : Bool
  is_couldnt_connect : Bool
  is_operation_timedout : Bool
  is_ssl_connect_error : Bool
  is_peer_failed_verification : Bool
  is_too_many_redirects : Bool
  msg : Str
deriving DecidableEq

/-- Model of format_curl_error (rest.rs): push a fixed prefix for each
of the five category flags the source inspects, in source order, then
append the error's own Display string. -/
def format_curl_error (e : CurlErr) : Str :=
  let msg : Str := []
  let msg := if e.is_couldnt_resolve_host then msg ++ "Could not resolve host. ".toList else msg
  let msg := if e.is_couldnt_connect then msg ++ "Could not connect. ".toList else msg
  let msg := if e.is_operation_timedout then msg ++ "Operation timed out. ".toList else msg
  let msg := if e.is_ssl_connect_error then msg ++ "SSL connect error. ".toList else msg
  let msg := if e.is_peer_failed_verification then
    msg ++ "SSL certificate verification failed. ".toList else msg
  msg ++ e.msg

/-- Model of the urlencoding helper (rest.rs), which is
url::form_urlencoded::byte_serialize: alphanumerics and * - . _ are
kept, space becomes +, every other byte becomes a percent escape with
uppercase hex digits. -/
def urlencodeByte (b : Nat) : Str :=
  if (48 ≤ b && b ≤ 57) || (65 ≤ b && b ≤ 90) || (97 ≤ b && b ≤ 122) ||
      b = 42 || b = 45 || b = 46 || b = 95 then [Char.ofNat b]
  else if b = 32 then ['+']
  else ['%', hexDigitUpper (b / 16), hexDigitUpper (b % 16)]

/-- Model of urlencoding (rest.rs): byte-serialize the UTF-8 bytes of
the string. -/
def urlencoding (s : Str) : Str := ((utf8Bytes s).map urlencodeByte).flatten

/-- Model of uuid_simple (rest.rs): the lowercase-hex seconds and
subsecond-nanoseconds of the current wall-clock time, concatenated.
The clock read is the (secs, nanos) argument pair. -/
def uuid_simple (secs nanos : Nat) : Str := natToHex secs ++ natToHex nanos

/-! Response header canonicalization: the processing loop over the raw
header block inside execute_curl_request (rest.rs lines 445 to 474). -/

/-- State threaded through the header-block loop of
execute_curl_request: the growing response-header map (modelled as an
association list in insertion order), the cookie list, and the HTTP
version string. -/
structure HeaderState where
  headers : List (Str × Str)
  cookies : List Cookie
  http_version : Str
deriving DecidableEq

/-- Lookup in the response-header map model (HashMap::get). -/
def mapGetStr (m : List (Str × Str)) (k : Str) : Option Str :=
  match m.find? (fun kv => kv.1 = k) with
  | some kv => some kv.2
  | none => none

/-- In-place merge of a repeated header (HashMap::get_mut followed by
push_str of ", " and the new value on the existing entry). -/
def mapUpdateFirst (m : List (Str × Str)) (k v : Str) : List (Str × Str) :=
  match m with
  | [] => []
  | kv :: rest =>
    if kv.1 = k then (kv.1, kv.2 ++ ", ".toList ++ v) :: rest
    else kv :: mapUpdateFirst rest k v

/-- Body of the header-block loop for a name: value line of
execute_curl_request: check the (lowercased) name for set-cookie and
append the parsed cookie if so, then merge the pair into the header
map, concatenating with ", " when the name is already present. -/
def processNamedHeader (s : HeaderState) (name value : Str) : HeaderState :=
  let s :=
    if lowerStr name = "set-cookie".toList then
      match parse_set_cookie value with
      | some cookie => { s with cookies := s.cookies ++ [cookie] }
      | none => s
    else s
  if (mapGetStr s.headers name).isSome then
    { s with headers := mapUpdateFirst s.headers name value }
  else
    { s with headers := s.headers ++ [(name, value)] }

/-- One iteration of the header-block loop of execute_curl_request: a
line starting with "HTTP/" records the version token; otherwise the
line is split on the first colon and the trimmed name and value are
handed to processNamedHeader. -/
def processHeaderLine (s : HeaderState) (line : Str) : HeaderState :=
  if startsWithStr line ("HTTP/".toList) then
    let parts := splitNChar 3 ' ' line
    match parts.head? with
    | some p0 => { s with http_version := p0 }
    | none => s
  else
    match splitFirst ':' line with
    | some (name0, value0) => processNamedHeader s (trimStr name0) (trimStr value0)
    | none => s

/-- The header-block loop of execute_curl_request over all lines,
starting from the empty map, no cookies, and the "HTTP/1.1" default
version. -/
def processHeaders (lines : List Str) : HeaderState :=
  lines.foldl processHeaderLine
    { headers := [], cookies := [], http_version := "HTTP/1.1".toList }

/-- Content-type lookup of execute_curl_request (rest.rs lines 479 to
482): the exact key "content-type", then the exact key
"Content-Type". -/
def lookupContentType (headers : List (Str × Str)) : Option Str :=
  (mapGetStr headers ("content-type".toList)).orElse
    (fun _ => mapGetStr headers ("Content-Type".toList))

/-! Request body building: the body match inside execute_curl_request
(rest.rs lines 287 to 370). -/

/-- Result of encoding the request body: the Content-Type header lines
appended while encoding, the optional body byte buffer, and the
recorded body size. -/
structure BuiltBody where
  headers : List Str
  post_data : Option (List Nat)
  request_body_size : Nat
deriving DecidableEq

/-- The multipart boundary of execute_curl_request: a fixed prefix plus
uuid_simple of the clock reading. -/
def multipartBoundary (clock : Nat × Nat) : Str :=
  "----WebKitFormBoundary".toList ++ uuid_simple clock.1 clock.2

/-- The multipart body assembly loop of execute_curl_request: one part
per field with CRLF line ends, then the closing boundary marker. -/
def multipartBodyBytes (boundary : Str) (fields : List MultipartField) : List Nat :=
  (fields.map (fun field =>
    utf8Bytes ("--".toList ++ boundary ++ "\r\n".toList) ++
    match field.value with
    | .Text text =>
      utf8Bytes ("Content-Disposition: form-data; name=\"".toList ++ field.name ++
        "\"\r\n\r\n".toList) ++
      utf8Bytes text ++ utf8Bytes ("\r\n".toList)
    | .File data filename content_type =>
      let ct := content_type.getD ("application/octet-stream".toList)
      utf8Bytes ("Content-Disposition: form-data; name=\"".toList ++ field.name ++
        "\"; filename=\"".toList ++ filename ++ "\"\r\n".toList) ++
      utf8Bytes ("Content-Type: ".toList ++ ct ++ "\r\n\r\n".toList) ++
      data ++ utf8Bytes ("\r\n".toList))).flatten ++
  utf8Bytes ("--".toList ++ boundary ++ "--\r\n".toList)

/-- The form-urlencoded body string of execute_curl_request: encoded
key=value pairs joined by ampersands. -/
def formUrlEncodedBody (fields : List (Str × Str)) : Str :=
  joinSep ("&".toList)
    (fields.map (fun kv => urlencoding kv.1 ++ "=".toList ++ urlencoding kv.2))

/-- The multipart case of the body match in execute_curl_request,
given the generated boundary: all clock dependence of the builder
flows through the boundary argument. -/
def multipartBuilt (boundary : Str) (fields : List MultipartField) : BuiltBody :=
  let body := multipartBodyBytes boundary fields
  { headers := ["Content-Type: multipart/form-data; boundary=".toList ++ boundary],
    post_data := some body,
    request_body_size := body.length % 4294967296 }

/-- The body match of execute_curl_request (rest.rs lines 287 to 370):
per body variant, the appended Content-Type header lines, the post
data, and the recorded body size (u32 cast modelled by mod 2^32). -/
def buildBody (clock : Nat × Nat) (body : BodyType) : BuiltBody :=
  match body with
  | .None => { headers := [], post_data := none, request_body_size := 0 }
  | .Raw content content_type =>
    { headers := match content_type with
        | some ct => ["Content-Type: ".toList ++ ct]
        | none => [],
      post_data := some (utf8Bytes content),
      request_body_size := (utf8Bytes content).length % 4294967296 }
  | .FormUrlEncoded fields =>
    let encoded := formUrlEncodedBody fields
    { headers := ["Content-Type: application/x-www-form-urlencoded".toList],
      post_data := some (utf8Bytes encoded),
      request_body_size := (utf8Bytes encoded).length % 4294967296 }
  | .Multipart fields => multipartBuilt (multipartBoundary clock) fields
  | .Binary data _ =>
    { headers := ["Content-Type: application/octet-stream".toList],
      post_data := some data,
      request_body_size := data.length % 4294967296 }

/-- Bool test for the multipart body variant. -/
def isMultipartBody : BodyType → Bool
  | .Multipart _ => true
  | _ => false

/-- The header-list assembly of execute_curl_request (rest.rs lines
250 to 285): explicit headers in iteration order, then the auth header
if any (Basic auth uses curl's credential options, not a header), then
the Cookie header when the cookie list is non-empty. -/
def buildHeaderList (req : ApiRequest) : List Str :=
  let hs := req.headers.map (fun kv => kv.1 ++ ": ".toList ++ kv.2)
  let hs := match req.auth with
    | .Basic _ _ => hs
    | .Bearer token => hs ++ ["Authorization: Bearer ".toList ++ token]
    | .ApiKey key value .Header => hs ++ [key ++ ": ".toList ++ value]
    | _ => hs
  if req.cookies ≠ [] then
    hs ++ ["Cookie: ".toList ++ build_cookie_header req.cookies]
  else hs

/-! The transport executor: libcurl as the external collaborator. -/

/-- The one HTTP version preference the engine sets (HTTP/2 over TLS,
QUIC removed). -/
inductive CurlHttpVersion where
  | V2TLS
deriving DecidableEq

/-- Everything execute_curl_request configures on the curl easy handle
before performing the transfer. -/
structure CurlConfig where
  url : Str
  get_flag : Bool
  post_flag : Bool
  put_flag : Bool
  nobody : Bool
  custom_request : Option Str
  http_version : CurlHttpVersion
  username : Option Str
  password : Option Str
  timeout_ms : Option Nat
  follow_location : Bool
  max_redirections : Option Nat
  ssl_verify_peer : Bool
  ssl_verify_host : Bool
  proxy : Option ProxyConfig
  proxy_username : Option Str
  proxy_password : Option Str
  http_headers : List Str
  post_field_size : Option Nat
  post_data : Option (List Nat)
deriving DecidableEq

/-- Everything execute_curl_request reads back from the easy handle
after a successful transfer: phase times in seconds (rationals standing
for the f64 values), sizes, the raw response header bytes, the body
bytes, the response code, and the primary peer address. -/
structure PerformOut where
  total_time : ℚ
  namelookup_time : ℚ
  connect_time : ℚ
  appconnect_time : ℚ
  pretransfer_time : ℚ
  starttransfer_time : ℚ
  request_size : Nat
  header_size : Nat
  response_headers_raw : List Nat
  response_body : List Nat
  response_code : Nat
  primary_ip : Option Str

/-- The external HTTP transport: one transfer under a configuration,
yielding either a curl error or the observed outcome. -/
structure Transport where
  perform : CurlConfig → Except CurlErr PerformOut

/-- The timing computation of execute_curl_request (rest.rs lines 420
to 428), over millisecond values: each sub-phase duration is the
difference of adjacent phase timestamps clamped to zero. -/
def computeTiming (total namelookup connect appconnect pretransfer starttransfer : ℚ) :
    TimingInfo :=
  { total_ms := total,
    dns_lookup_ms := namelookup,
    tcp_handshake_ms := max (connect - namelookup) 0,
    tls_handshake_ms := max (appconnect - connect) 0,
    transfer_start_ms := max (pretransfer - appconnect) 0,
    ttfb_ms := max (starttransfer - pretransfer) 0,
    content_download_ms := max (total - starttransfer) 0 }

/-- The method flag settings of execute_curl_request (rest.rs lines
208 to 220). -/
def methodFlags (m : Methods) : Bool × Bool × Bool × Bool × Option Str :=
  match m with
  | .GET => (true, false, false, false, none)
  | .POST => (false, true, false, false, none)
  | .PUT => (false, false, true, false, none)
  | .HEAD => (false, false, false, true, some ("HEAD".toList))
  | m => (false, false, false, false, some (method_to_curl_string m))

/-- Model of execute_curl_request (rest.rs lines 193 to 515).  The url
crate, the transport, the serde_json parse and the clock are explicit
parameters; the infallible easy-handle option setters of the source
(fallible only on out-of-memory) are modelled as pure configuration.
On a parse failure of the base URL the function returns the error
before the transport is consulted; on a transfer failure it returns
the formatted curl error; otherwise it assembles the response model
with error set to none. -/
def execute_curl_request {U : Type} (L : UrlLib U) (t : Transport)
    (jsonOk : List Nat → Bool) (clock : Nat × Nat) (req : ApiRequest) :
    Except Str ApiResponse :=
  let api_key_query : Option (Str × Str) := match req.auth with
    | .ApiKey key value .Query => some (key, value)
    | _ => none
  match build_url_with_params L req.url req.query_params api_key_query with
  | .error e => .error e
  | .ok url =>
    let flags := methodFlags req.method
    let creds : Option Str × Option Str := match req.auth with
      | .Basic username password => (some username, some password)
      | _ => (none, none)
    let follow := req.follow_redirects.getD true
    let bb := buildBody clock req.body
    let cfg : CurlConfig :=
      { url := url,
        get_flag := flags.1, post_flag := flags.2.1, put_flag := flags.2.2.1,
        nobody := flags.2.2.2.1, custom_request := flags.2.2.2.2,
        http_version := .V2TLS,
        username := creds.1, password := creds.2,
        timeout_ms := req.timeout_ms,
        follow_location := follow,
        max_redirections := if follow then some (req.max_redirects.getD 10) else none,
        ssl_verify_peer := req.verify_ssl.getD true,
        ssl_verify_host := req.verify_ssl.getD true,
        proxy := req.proxy,
        proxy_username := req.proxy.bind (fun p => match p.username, p.password with
          | some u, some _ => some u
          | _, _ => none),
        proxy_password := req.proxy.bind (fun p => match p.username, p.password with
          | some _, some w => some w
          | _, _ => none),
        http_headers := buildHeaderList req ++ bb.headers,
        post_field_size := bb.post_data.map List.length,
        post_data := bb.post_data }
    match t.perform cfg with
    | .error e => .error (format_curl_error e)
    | .ok out =>
      let timing := computeTiming (out.total_time * 1000) (out.namelookup_time * 1000)
        (out.connect_time * 1000) (out.appconnect_time * 1000)
        (out.pretransfer_time * 1000) (out.starttransfer_time * 1000)
      let request_header_size := out.request_size % 4294967296
      let response_header_size := out.header_size % 4294967296
      let st := processHeaders (rustLines (utf8Lossy out.response_headers_raw))
      let status := out.response_code % 65536
      let content_type := lookupContentType st.headers
      .ok { status := status,
            status_text := status_text status,
            headers := st.headers,
            cookies := st.cookies,
            body_base64 := base64Encode out.response_body,
            timing := timing,
            request_size :=
              { headers_bytes := request_header_size,
                body_bytes := bb.request_body_size,
                total_bytes := (request_header_size + bb.request_body_size) % 4294967296 },
            response_size :=
              { headers_bytes := response_header_size,
                body_bytes := out.response_body.length % 4294967296,
                total_bytes :=
                  (response_header_size + out.response_body.length % 4294967296) % 4294967296 },
            redirects := [],
            remote_addr := out.primary_ip,
            http_version := st.http_version,
            available_renderers := detect_renderers jsonOk content_type out.response_body,
            detected_content_type := content_type,
            protocol_used :=
              if strContains st.http_version ("3".toList) then "HTTP/3".toList
              else if strContains st.http_version ("2".toList) then "HTTP/2".toList
              else st.http_version,
            error := none }

/-! The reqwest-based executor variant, from src-tauri/src/lib.rs. -/

namespace LibV

/-- HTTP methods of the reqwest-based variant (lib.rs). -/
inductive LMethods where
  | GET | POST | PUT | DELETE | PATCH | HEAD
deriving DecidableEq

/-- Request model of the reqwest-based variant (lib.rs); the headers
HashMap is modelled as an association list in iteration order. -/
structure LApiRequest where
  method : LMethods
  url : Str
  headers : List (Str × Str)
  body : Str

/-- Response model of the reqwest-based variant (lib.rs); J stands for
serde_json::Value. -/
structure LApiResponse (J : Type) where
  status : Nat
  headers : List (Str × Str)
  raw_body : Str
  json_body : Option J
  time_ms : Nat

/-- Model of reqwest HeaderMap::insert: at most one entry per name
remains, the new value replacing any previous one. -/
def headerInsert (m : List (Str × Str)) (k v : Str) : List (Str × Str) :=
  (m.filter (fun kv => kv.1 ≠ k)) ++ [(k, v)]

/-- Model of convert_headers (lib.rs): for each entry, parse the name
(HeaderName::from_str, modelled by the parseName oracle, which also
canonicalizes the name) and validate the value (HeaderValue::from_str,
modelled by the validValue oracle); entries failing either check are
skipped silently, the rest are inserted.  The conversion itself is
total: it always yields a header map. -/
def convert_headers (parseName : Str → Option Str) (validValue : Str → Bool)
    (map : List (Str × Str)) : List (Str × Str) :=
  map.foldl (fun headers kv =>
    match parseName kv.1 with
    | some name => if validValue kv.2 then headerInsert headers name kv.2 else headers
    | none => headers) []

/-- Outcome of a successful reqwest send: the status, the response
headers (already stringified), and the result of collecting the body
bytes (which can itself fail). -/
structure SendOut where
  status : Nat
  headers : List (Str × Str)
  bytesResult : Except Str (List Nat)

/-- The reqwest client as the external collaborator: one send with a
method, url, converted header map, and optional body. -/
structure RClient where
  send : LMethods → Str → List (Str × Str) → Option Str → Except Str SendOut

/-- Model of rest_request (lib.rs): dispatch on the method (GET,
DELETE and HEAD carry no body), propagate a send failure or a body
collection failure as the command's error, and otherwise assemble the
response with the lossily decoded body, the optional parsed JSON value
(the jsonParse oracle standing for serde_json::from_slice), and the
elapsed time reported by the clock. -/
def rest_request {J : Type} (client : RClient) (parseName : Str → Option Str)
    (validValue : Str → Bool) (jsonParse : List Nat → Option J) (elapsedMs : Nat)
    (req : LApiRequest) : Except Str (LApiResponse J) :=
  let hs := convert_headers parseName validValue req.headers
  let result := match req.method with
    | .GET => client.send .GET req.url hs none
    | .POST => client.send .POST req.url hs (some req.body)
    | .PUT => client.send .PUT req.url hs (some req.body)
    | .DELETE => client.send .DELETE req.url hs none
    | .PATCH => client.send .PATCH req.url hs (some req.body)
    | .HEAD => client.send .HEAD req.url hs none
  match result with
  | .error e => .error e
  | .ok resp =>
    match resp.bytesResult with
    | .error e => .error e
    | .ok bytes =>
      .ok { status := resp.status,
            headers := resp.headers,
            raw_body := utf8Lossy bytes,
            json_body := jsonParse bytes,
            time_ms := elapsedMs }

end LibV

/-! Derived descriptions of the header-block loop, used to state the
canonicalization and cookie-extraction properties. -/

/-- The cookie contributed by one raw header line: lines whose trimmed
name lowercases to set-cookie are parsed, all others contribute
nothing. -/
def cookieOfLine (line : Str) : Option Cookie :=
  if startsWithStr line ("HTTP/".toList) then none
  else match splitFirst ':' line with
    | some nv =>
      if lowerStr (trimStr nv.1) = "set-cookie".toList then
        parse_set_cookie (trimStr nv.2)
      else none
    | none => none

/-- The value one raw header line contributes to the header map under
the (case-sensitively matched) name n. -/
def headerValueOf (n : Str) (line : Str) : Option Str :=
  if startsWithStr line ("HTTP/".toList) then none
  else match splitFirst ':' line with
    | some nv => if trimStr nv.1 = n then some (trimStr nv.2) else none
    | none => none

/-- The HTTP version token a raw header line contributes, if any. -/
def httpTokenOf (line : Str) : Option Str :=
  if startsWithStr line ("HTTP/".toList) then (splitNChar 3 ' ' line).head?
  else none

/-- Join a list of header values with ", ", or none when there are no
values. -/
def joinValuesOpt : List Str → Option Str
  | [] => none
  | v :: vs => some (joinSep (", ".toList) (v :: vs))

/-- Join helper threading an already-accumulated map value. -/
def joinAcc : Option Str → List Str → Option Str
  | none, vs => joinValuesOpt vs
  | some v0, vs => some (joinSep (", ".toList) (v0 :: vs))

/-- The five category prefix strings of format_curl_error, in source
order, as one concatenation. -/
def curlErrPrefixText (e : CurlErr) : Str :=
  (if e.is_couldnt_resolve_host then "Could not resolve host. ".toList else []) ++
  (if e.is_couldnt_connect then "Could not connect. ".toList else []) ++
  (if e.is_operation_timedout then "Operation timed out. ".toList else []) ++
  (if e.is_ssl_connect_error then "SSL connect error. ".toList else []) ++
  (if e.is_peer_failed_verification then "SSL certificate verification failed. ".toList else [])

/-- Numeric value of a lowercase hex digit character. -/
def hexVal (c : Char) : Nat :=
  if 97 ≤ c.toNat then c.toNat - 87 else c.toNat - 48

/-- Accumulator-passing parse of a lowercase hex digit string. -/
def parseHexAcc (acc : Nat) : Str → Nat
  | [] => acc
  | c :: rest => parseHexAcc (acc * 16 + hexVal c) rest

/-! Helper lemmas. -/

theorem joinSep_merge (sep a b : Str) (vs : List Str) :
    joinSep sep ((a ++ sep ++ b) :: vs) = a ++ sep ++ joinSep sep (b :: vs) := by
  cases vs with
  | nil => simp [joinSep]
  | cons w ws => simp [joinSep, List.append_assoc]

theorem mapGetStr_nil (n : Str) : mapGetStr [] n = none := rfl

theorem mapGetStr_append_single (m : List (Str × Str)) (k v n : Str) :
    mapGetStr (m ++ [(k, v)]) n =
      match mapGetStr m n with
      | some w => some w
      | none => if k = n then some v else none := by
  induction m with
  | nil =>
    by_cases h : k = n
    · subst h; simp [mapGetStr, List.find?]
    · simp [mapGetStr, List.find?, h]
  | cons kv rest ih =>
    by_cases h : kv.1 = n
    · simp [mapGetStr, List.find?, h]
    · simpa [mapGetStr, List.find?, h] using ih

theorem mapGetStr_update (m : List (Str × Str)) (k v n : Str) :
    mapGetStr (mapUpdateFirst m k v) n =
      if n = k then (mapGetStr m k).map (fun w => w ++ ", ".toList ++ v)
      else mapGetStr m n := by
  induction m with
  | nil => by_cases h : n = k <;> simp [mapUpdateFirst, mapGetStr, List.find?, h]
  | cons kv rest ih =>
    by_cases hk : kv.1 = k
    · by_cases hn : n = k
      · subst hn
        simp [mapUpdateFirst, mapGetStr, List.find?, hk]
      · have h1 : ¬ (kv.1 = n) := fun h => hn (hk.symm.trans h).symm
        have h3 : ¬ (k = n) := fun h => hn h.symm
        simp [mapUpdateFirst, mapGetStr, List.find?, hk, h1, hn, h3]
    · by_cases hn : kv.1 = n
      · have h1 : ¬ (n = k) := fun h => hk (hn.trans h)
        simp [mapUpdateFirst, mapGetStr, List.find?, hk, hn, h1]
      · by_cases h2 : n = k
        · subst h2
          simpa [mapUpdateFirst, mapGetStr, List.find?, hk, hn] using ih
        · simpa [mapUpdateFirst, mapGetStr, List.find?, hk, hn, h2] using ih


theorem processNamedHeader_cookies (s : HeaderState) (name value : Str) :
    (processNamedHeader s name value).cookies =
      s.cookies ++ (if lowerStr name = "set-cookie".toList then
        (parse_set_cookie value).toList else []) := by
  unfold processNamedHeader
  by_cases hsc : lowerStr name = "set-cookie".toList
  · simp only [hsc, if_true]
    cases hpc : parse_set_cookie value with
    | none => split <;> simp [Option.toList]
    | some c => split <;> simp [Option.toList]
  · simp only [hsc, if_false]
    split <;> simp

theorem processNamedHeader_get (s : HeaderState) (name value n : Str) :
    mapGetStr (processNamedHeader s name value).headers n =
      if name = n then
        match mapGetStr s.headers n with
        | some v0 => some (v0 ++ ", ".toList ++ value)
        | none => some value
      else mapGetStr s.headers n := by
  unfold processNamedHeader
  have hcs :
      (if lowerStr name = "set-cookie".toList then
        match parse_set_cookie value with
        | some cookie => { s with cookies := s.cookies ++ [cookie] }
        | none => s
      else s).headers = s.headers := by
    split
    · split <;> rfl
    · rfl
  simp only [hcs]
  by_cases hex : (mapGetStr s.headers name).isSome = true
  · rw [if_pos hex]
    obtain ⟨w, hw⟩ := Option.isSome_iff_exists.mp hex
    simp only [mapGetStr_update]
    by_cases hn : name = n
    · subst hn; rw [if_pos rfl, if_pos rfl, hw]; simp
    · rw [if_neg (fun h => hn h.symm), if_neg hn]
  · rw [if_neg hex]
    have hnone : mapGetStr s.headers name = none := by
      cases hmg : mapGetStr s.headers name
      · rfl
      · rw [hmg] at hex; simp at hex
    simp only [mapGetStr_append_single]
    by_cases hn : name = n
    · subst hn; rw [hnone]
    · rw [if_neg hn]
      cases hmg : mapGetStr s.headers n <;> simp [hn]

theorem processNamedHeader_version (s : HeaderState) (name value : Str) :
    (processNamedHeader s name value).http_version = s.http_version := by
  unfold processNamedHeader
  by_cases hsc : lowerStr name = "set-cookie".toList
  · simp only [hsc, if_true]
    cases hpc : parse_set_cookie value with
    | none => split <;> simp
    | some c => split <;> simp
  · simp only [hsc, if_false]
    split <;> simp

theorem processHeaderLine_cookies (s : HeaderState) (line : Str) :
    (processHeaderLine s line).cookies = s.cookies ++ (cookieOfLine line).toList := by
  unfold processHeaderLine cookieOfLine
  by_cases hh : startsWithStr line ("HTTP/".toList) = true
  · rw [if_pos hh, if_pos hh]
    cases hhd : (splitNChar 3 ' ' line).head? <;> simp [hhd]
  · rw [if_neg hh, if_neg hh]
    cases hsf : splitFirst ':' line with
    | none => simp
    | some nv =>
      rw [processNamedHeader_cookies]
      by_cases hsc : lowerStr (trimStr nv.1) = "set-cookie".toList
      · rw [if_pos (by simpa using hsc)]
        dsimp only
        rw [if_pos (by simpa using hsc)]
      · rw [if_neg (by simpa using hsc)]
        dsimp only
        rw [if_neg (by simpa using hsc)]
        simp

theorem processHeaderLine_get (s : HeaderState) (line : Str) (n : Str) :
    mapGetStr (processHeaderLine s line).headers n =
      match headerValueOf n line with
      | none => mapGetStr s.headers n
      | some v =>
        match mapGetStr s.headers n with
        | some v0 => some (v0 ++ ", ".toList ++ v)
        | none => some v := by
  unfold processHeaderLine headerValueOf
  by_cases hh : startsWithStr line ("HTTP/".toList) = true
  · rw [if_pos hh, if_pos hh]
    cases hhd : (splitNChar 3 ' ' line).head? <;> simp [hhd]
  · rw [if_neg hh, if_neg hh]
    cases hsf : splitFirst ':' line with
    | none => simp
    | some nv =>
      rw [processNamedHeader_get]
      by_cases hn : trimStr nv.1 = n
      · simp [hn]
      · simp [hn]

theorem processHeaderLine_version (s : HeaderState) (line : Str) :
    (processHeaderLine s line).http_version = (httpTokenOf line).getD s.http_version := by
  unfold processHeaderLine httpTokenOf
  by_cases hh : startsWithStr line ("HTTP/".toList) = true
  · rw [if_pos hh, if_pos hh]
    cases hhd : (splitNChar 3 ' ' line).head? <;> simp [hhd]
  · rw [if_neg hh, if_neg hh]
    cases hsf : splitFirst ':' line with
    | none => simp
    | some nv => rw [processNamedHeader_version]; simp

theorem foldl_processHeaderLine_cookies (lines : List Str) :
    ∀ s : HeaderState,
      (lines.foldl processHeaderLine s).cookies = s.cookies ++ lines.filterMap cookieOfLine := by
  induction lines with
  | nil => intro s; simp
  | cons l ls ih =>
    intro s
    rw [List.foldl_cons, ih, processHeaderLine_cookies]
    cases hc : cookieOfLine l <;> simp [List.filterMap_cons, hc, Option.toList]

theorem foldl_processHeaderLine_get (lines : List Str) :
    ∀ (s : HeaderState) (n : Str),
      mapGetStr (lines.foldl processHeaderLine s).headers n =
        joinAcc (mapGetStr s.headers n) (lines.filterMap (headerValueOf n)) := by
  induction lines with
  | nil =>
    intro s n
    cases h : mapGetStr s.headers n <;> simp [joinAcc, h, joinValuesOpt, joinSep]
  | cons l ls ih =>
    intro s n
    rw [List.foldl_cons, ih, processHeaderLine_get]
    cases hv : headerValueOf n l with
    | none => simp [List.filterMap_cons, hv]
    | some v =>
      simp only [List.filterMap_cons, hv]
      cases hm : mapGetStr s.headers n with
      | none => simp [joinAcc, joinValuesOpt]
      | some v0 =>
        simp only [joinAcc]
        rw [joinSep_merge]
        simp [joinSep]

theorem getLastD_cons_aux {α : Type} (rest : List α) :
    ∀ t d : α, ((t :: rest).getLast?).getD d = (rest.getLast?).getD t := by
  induction rest with
  | nil => intro t d; rfl
  | cons w ws ih =>
    intro t d
    rw [List.getLast?_cons_cons,
      show ((w :: ws).getLast?).getD d = (ws.getLast?).getD w from ih w d,
      show ((w :: ws).getLast?).getD t = (ws.getLast?).getD w from ih w t]

theorem foldl_processHeaderLine_version (lines : List Str) :
    ∀ s : HeaderState,
      (lines.foldl processHeaderLine s).http_version =
        ((lines.filterMap httpTokenOf).getLast?).getD s.http_version := by
  induction lines with
  | nil => intro s; rfl
  | cons l ls ih =>
    intro s
    rw [List.foldl_cons, ih, processHeaderLine_version]
    cases ht : httpTokenOf l with
    | none => simp [List.filterMap_cons, ht]
    | some t =>
      simp only [List.filterMap_cons, ht, Option.getD_some]
      rw [getLastD_cons_aux]

theorem parseHexAcc_append_digit (xs : Str) :
    ∀ (acc : Nat) (c : Char),
      parseHexAcc acc (xs ++ [c]) = parseHexAcc acc xs * 16 + hexVal c := by
  induction xs with
  | nil => intro acc c; rfl
  | cons d rest ih => intro acc c; exact ih (acc * 16 + hexVal d) c

theorem hexVal_hexDigit : ∀ d : Nat, d < 16 → hexVal (hexDigit d) = d := by decide

theorem parseHexAcc_natToHexAux (fuel : Nat) :
    ∀ n acc : Nat, n < 16 ^ fuel →
      parseHexAcc acc (natToHexAux fuel n) = acc * 16 ^ (natToHexAux fuel n).length + n := by
  induction fuel with
  | zero =>
    intro n acc hn
    have : n = 0 := by simpa using hn
    subst this
    simp [natToHexAux, parseHexAcc]
  | succ f ih =>
    intro n acc hn
    by_cases h0 : n = 0
    · subst h0; simp [natToHexAux, parseHexAcc]
    · rw [natToHexAux, if_neg h0, parseHexAcc_append_digit,
        ih (n / 16) acc (by
          rw [Nat.div_lt_iff_lt_mul (by norm_num)]
          calc n < 16 ^ (f + 1) := hn
          _ = 16 ^ f * 16 := by rw [pow_succ]),
        hexVal_hexDigit (n % 16) (Nat.mod_lt n (by norm_num))]
      rw [List.length_append, List.length_singleton, pow_succ]
      ring_nf
      omega

theorem parseHexAcc_natToHex (n : Nat) : parseHexAcc 0 (natToHex n) = n := by
  by_cases h0 : n = 0
  · subst h0; rfl
  · rw [natToHex, if_neg h0,
      parseHexAcc_natToHexAux n n 0 (Nat.lt_pow_self (by norm_num) n)]
    simp

theorem natToHex_injective : Function.Injective natToHex := by
  intro a b h
  have ha := parseHexAcc_natToHex a
  rw [h, parseHexAcc_natToHex b] at ha
  exact ha.symm

theorem execute_url_parse_error {U : Type} (L : UrlLib U) (t : Transport)
    (jsonOk : List Nat → Bool) (clock : Nat × Nat) (req : ApiRequest) (e : Str)
    (h : L.parse req.url = .error e) :
    execute_curl_request L t jsonOk clock req = .error ("Invalid URL: ".toList ++ e) := by
  unfold execute_curl_request build_url_with_params
  rw [h]

theorem execute_perform_error {U : Type} (L : UrlLib U) (t : Transport)
    (jsonOk : List Nat → Bool) (clock : Nat × Nat) (req : ApiRequest) (u : U)
    (err : CurlErr) (hp : L.parse req.url = .ok u)
    (ht : ∀ cfg, t.perform cfg = .error err) :
    execute_curl_request L t jsonOk clock req = .error (format_curl_error err) := by
  unfold execute_curl_request build_url_with_params
  rw [hp]
  simp only [ht]

theorem execute_perform_ok {U : Type} (L : UrlLib U) (t : Transport)
    (jsonOk : List Nat → Bool) (clock : Nat × Nat) (req : ApiRequest) (u : U)
    (out : PerformOut) (hp : L.parse req.url = .ok u)
    (ht : ∀ cfg, t.perform cfg = .ok out) :
    ∃ resp, execute_curl_request L t jsonOk clock req = .ok resp ∧ resp.error = none := by
  unfold execute_curl_request build_url_with_params
  rw [hp]
  simp only [ht]
  exact ⟨_, rfl, rfl⟩

theorem format_curl_error_eq (e : CurlErr) :
    format_curl_error e = curlErrPrefixText e ++ e.msg := by
  rcases e with ⟨f1, f2, f3, f4, f5, f6, m⟩
  unfold format_curl_error curlErrPrefixText
  cases f1 <;> cases f2 <;> cases f3 <;> cases f4 <;> cases f5 <;>
    simp [List.append_assoc]

theorem convert_headers_skip (parseName : Str → Option Str) (validValue : Str → Bool)
    (e1 e2 : List (Str × Str)) (k v : Str)
    (h : parseName k = none ∨ validValue v = false) :
    LibV.convert_headers parseName validValue (e1 ++ (k, v) :: e2) =
      LibV.convert_headers parseName validValue (e1 ++ e2) := by
  unfold LibV.convert_headers
  rw [List.foldl_append, List.foldl_append, List.foldl_cons]
  congr 1
  rcases h with h | h
  · simp [h]
  · cases hpn : parseName k <;> simp [h, hpn]

theorem multipartBoundary_ne_of_nanos_ne (s n1 n2 : Nat) (h : n1 ≠ n2) :
    multipartBoundary (s, n1) ≠ multipartBoundary (s, n2) := by
  intro heq
  unfold multipartBoundary uuid_simple at heq
  rw [← List.append_assoc, ← List.append_assoc] at heq
  simp only [List.append_cancel_left_eq] at heq
  exact h (natToHex_injective heq)

theorem detect_renderers_shape (jsonOk : List Nat → Bool) (content_type : Option Str)
    (body : List Nat) :
    ∃ rest, detect_renderers jsonOk content_type body = ResponseRenderer.Raw :: rest :=
  ⟨_, rfl⟩

/-! Concrete stand-ins for the external collaborators, used in the
closed counterexample and witness statements. -/

/-- A concrete url library model that accepts every base URL verbatim,
ignores query appends, and renders the URL unchanged. -/
def stubUrlLib : UrlLib Str :=
  { parse := fun s => .ok s, appendPair := fun u _ _ => u, render := fun u => u }

/-- A concrete url library model that rejects every base URL. -/
def rejectUrlLib : UrlLib Str :=
  { parse := fun _ => .error ("relative URL without a base".toList),
    appendPair := fun u _ _ => u, render := fun u => u }

/-- A curl error flagged as a host-resolution failure. -/
def dnsFailErr : CurlErr :=
  { is_couldnt_resolve_host := true, is_couldnt_connect := false,
    is_operation_timedout := false, is_ssl_connect_error := false,
    is_peer_failed_verification := false, is_too_many_redirects := false,
    msg := "[6] Could not resolve hostname".toList }

/-- A transport whose transfer always fails with a host-resolution
error. -/
def failTransport : Transport := { perform := fun _ => .error dnsFailErr }

/-- A plain GET request to a well-formed URL, with the documented
defaults filled in. -/
def sampleGetReq : ApiRequest :=
  { method := .GET, url := "http://example.com".toList, headers := [], body := .None,
    auth := .None, query_params := [], cookies := [], timeout_ms := some 30000,
    follow_redirects := some true, max_redirects := some 10, verify_ssl := some true,
    proxy := none, protocol := none }

/-! Claims. -/

/-- Claim C1, counterexample: the claim says execute fails (through the
distinct error channel) if and only if the base URL does not parse, and
that transport failures (DNS etc.) are represented inside a normally
returned response model with status 0.  On the code, a DNS failure on a
request whose URL parses fine is returned through the same distinct
error channel (an Err string), not inside a response model: here the
url library accepts the URL, the transport reports a host-resolution
failure, and execute_curl_request returns an error value. -/
theorem claim_C1_counterexample :
    stubUrlLib.parse sampleGetReq.url = .ok ("http://example.com".toList) ∧
    execute_curl_request stubUrlLib failTransport (fun _ => false) (0, 0) sampleGetReq =
      .error ("Could not resolve host. [6] Could not resolve hostname".toList) :=
  ⟨rfl, rfl⟩

/-- Claim C1, amended: execute_curl_request fails before any transport
invocation with an error prefixed "Invalid URL: " when the base URL
does not parse (its result is then independent of the transport, the
json oracle and the clock); but every transport failure is also
returned through the same distinct error channel, formatted by
format_curl_error, and only a successful transfer produces a response
model, whose error field is then none. -/
theorem claim_C1_amended {U : Type} (L : UrlLib U) (t : Transport)
    (jsonOk : List Nat → Bool) (clock : Nat × Nat) (req : ApiRequest) :
    (∀ e, L.parse req.url = .error e →
      execute_curl_request L t jsonOk clock req = .error ("Invalid URL: ".toList ++ e) ∧
      ∀ (t2 : Transport) (jsonOk2 : List Nat → Bool) (clock2 : Nat × Nat),
        execute_curl_request L t jsonOk clock req =
          execute_curl_request L t2 jsonOk2 clock2 req) ∧
    (∀ u err, L.parse req.url = .ok u → (∀ cfg, t.perform cfg = .error err) →
      execute_curl_request L t jsonOk clock req = .error (format_curl_error err)) ∧
    (∀ u out, L.parse req.url = .ok u → (∀ cfg, t.perform cfg = .ok out) →
      ∃ resp, execute_curl_request L t jsonOk clock req = .ok resp ∧ resp.error = none) := by
  refine ⟨?_, ?_, ?_⟩
  · intro e he
    refine ⟨execute_url_parse_error L t jsonOk clock req e he, ?_⟩
    intro t2 jsonOk2 clock2
    rw [execute_url_parse_error L t jsonOk clock req e he,
      execute_url_parse_error L t2 jsonOk2 clock2 req e he]
  · intro u err hp ht
    exact execute_perform_error L t jsonOk clock req u err hp ht
  · intro u out hp ht
    exact execute_perform_ok L t jsonOk clock req u out hp ht

/-- Witness for claim C1's amended theorem: at the rejecting url
library the first part gives a closed parse-failure result, and at the
accepting library with the always-failing transport the second part
gives a closed transfer-failure result. -/
theorem claim_C1_witness :
    execute_curl_request rejectUrlLib failTransport (fun _ => false) (0, 0) sampleGetReq =
      .error ("Invalid URL: relative URL without a base".toList) ∧
    execute_curl_request stubUrlLib failTransport (fun _ => false) (1, 2) sampleGetReq =
      .error (format_curl_error dnsFailErr) :=
  ⟨((claim_C1_amended rejectUrlLib failTransport (fun _ => false) (0, 0) sampleGetReq).1
      ("relative URL without a base".toList) rfl).1,
   (claim_C1_amended stubUrlLib failTransport (fun _ => false) (1, 2) sampleGetReq).2.1
      ("http://example.com".toList) dnsFailErr rfl (fun _ => rfl)⟩

/-- Claim C2, counterexample: the claim says the classifier adds a
prefix for each matching category among eight, including
too-many-redirects, and that the result is delivered inside a response
model with status 0.  On the code, an error flagged as
too-many-redirects gets no prefix at all: the formatted message is
exactly the transport's own diagnostic string. -/
theorem claim_C2_counterexample :
    format_curl_error
      { is_couldnt_resolve_host := false, is_couldnt_connect := false,
        is_operation_timedout := false, is_ssl_connect_error := false,
        is_peer_failed_verification := false, is_too_many_redirects := true,
        msg := "Maximum redirects followed".toList } =
      "Maximum redirects followed".toList := rfl

/-- Claim C2, amended: on transport failure the classifier builds the
message by concatenating, in a fixed order, the prefixes of the five
categories the source inspects (host-resolution, connect, timeout,
TLS-connect, certificate-verification), followed by the transport's own
diagnostic string; the result is returned as the operation's error
value (no response model with a sentinel status text is produced). -/
theorem claim_C2_amended {U : Type} :
    (∀ e : CurlErr, format_curl_error e = curlErrPrefixText e ++ e.msg) ∧
    (∀ (L : UrlLib U) (t : Transport) (jsonOk : List Nat → Bool) (clock : Nat × Nat)
       (req : ApiRequest) (u : U) (err : CurlErr),
      L.parse req.url = .ok u → (∀ cfg, t.perform cfg = .error err) →
      execute_curl_request L t jsonOk clock req =
        .error (curlErrPrefixText err ++ err.msg)) := by
  refine ⟨format_curl_error_eq, ?_⟩
  intro L t jsonOk clock req u err hp ht
  rw [execute_perform_error L t jsonOk clock req u err hp ht, format_curl_error_eq]

/-- Witness for claim C2's amended theorem: a closed transfer-failure
result at the concrete stub collaborators, with the five-category
prefix text evaluated on the host-resolution error. -/
theorem claim_C2_witness :
    execute_curl_request stubUrlLib failTransport (fun _ => false) (0, 0) sampleGetReq =
      .error (curlErrPrefixText dnsFailErr ++ dnsFailErr.msg) :=
  (claim_C2_amended (U := Str)).2 stubUrlLib failTransport (fun _ => false) (0, 0)
    sampleGetReq ("http://example.com".toList) dnsFailErr rfl (fun _ => rfl)

/-- Claim C3: for phase timestamps (in milliseconds) with 0 ≤ t_dns ≤
t_connect ≤ t_tls ≤ t_pretransfer ≤ t_firstbyte ≤ t_total, the
analyzer's timing computation yields exactly the documented clamped
differences, all six derived fields are nonnegative, and their sum does
not exceed total_ms. -/
theorem claim_C3 (td tc tt tp tf tT : ℚ) (h0 : 0 ≤ td) (h1 : td ≤ tc) (h2 : tc ≤ tt)
    (h3 : tt ≤ tp) (h4 : tp ≤ tf) (h5 : tf ≤ tT) :
    (computeTiming tT td tc tt tp tf).dns_lookup_ms = td ∧
    (computeTiming tT td tc tt tp tf).tcp_handshake_ms = tc - td ∧
    (computeTiming tT td tc tt tp tf).tls_handshake_ms = tt - tc ∧
    (computeTiming tT td tc tt tp tf).transfer_start_ms = tp - tt ∧
    (computeTiming tT td tc tt tp tf).ttfb_ms = tf - tp ∧
    (computeTiming tT td tc tt tp tf).content_download_ms = tT - tf ∧
    (0 ≤ (computeTiming tT td tc tt tp tf).dns_lookup_ms ∧
     0 ≤ (computeTiming tT td tc tt tp tf).tcp_handshake_ms ∧
     0 ≤ (computeTiming tT td tc tt tp tf).tls_handshake_ms ∧
     0 ≤ (computeTiming tT td tc tt tp tf).transfer_start_ms ∧
     0 ≤ (computeTiming tT td tc tt tp tf).ttfb_ms ∧
     0 ≤ (computeTiming tT td tc tt tp tf).content_download_ms) ∧
    (computeTiming tT td tc tt tp tf).dns_lookup_ms +
      (computeTiming tT td tc tt tp tf).tcp_handshake_ms +
      (computeTiming tT td tc tt tp tf).tls_handshake_ms +
      (computeTiming tT td tc tt tp tf).transfer_start_ms +
      (computeTiming tT td tc tt tp tf).ttfb_ms +
      (computeTiming tT td tc tt tp tf).content_download_ms ≤
      (computeTiming tT td tc tt tp tf).total_ms := by
  have m1 : max (tc - td) (0 : ℚ) = tc - td := max_eq_left (by linarith)
  have m2 : max (tt - tc) (0 : ℚ) = tt - tc := max_eq_left (by linarith)
  have m3 : max (tp - tt) (0 : ℚ) = tp - tt := max_eq_left (by linarith)
  have m4 : max (tf - tp) (0 : ℚ) = tf - tp := max_eq_left (by linarith)
  have m5 : max (tT - tf) (0 : ℚ) = tT - tf := max_eq_left (by linarith)
  unfold computeTiming
  simp only [m1, m2, m3, m4, m5]
  refine ⟨trivial, trivial, trivial, trivial, trivial, trivial,
    ⟨by linarith, by linarith, by linarith, by linarith, by linarith, by linarith⟩,
    by linarith⟩

/-- Witness for claim C3 at the concrete timestamps 0 1 2 3 4 5. -/
theorem claim_C3_witness : (computeTiming 5 0 1 2 3 4).tcp_handshake_ms = 1 - 0 :=
  (claim_C3 0 1 2 3 4 5 (by norm_num) (by norm_num) (by norm_num) (by norm_num)
    (by norm_num) (by norm_num)).2.1

/-- Claim C4: every raw header line whose name case-insensitively
equals set-cookie is parsed independently into one cookie and appended
in appearance order, a line whose first semicolon segment has no
equals sign is dropped, and the two example Set-Cookie lines yield
exactly two cookies with http_only set on the first and the domain set
on the second. -/
theorem claim_C4 :
    (∀ lines : List Str, (processHeaders lines).cookies = lines.filterMap cookieOfLine) ∧
    (∀ (v p0 : Str) (rest : List Str),
      splitOnChar ';' v = p0 :: rest → splitFirst '=' p0 = none →
      parse_set_cookie v = none) ∧
    (processHeaders ["HTTP/1.1 200 OK".toList,
        "Set-Cookie: session=abc; Path=/; HttpOnly".toList,
        "Set-Cookie: theme=dark; Domain=example.com".toList]).cookies =
      [{ name := "session".toList, value := "abc".toList, domain := none,
         path := some "/".toList, expires := none, http_only := some true,
         secure := none },
       { name := "theme".toList, value := "dark".toList,
         domain := some "example.com".toList, path := none, expires := none,
         http_only := none, secure := none }] := by
  refine ⟨?_, ?_, by decide⟩
  · intro lines
    unfold processHeaders
    rw [foldl_processHeaderLine_cookies]
    rfl
  · intro v p0 rest hsplit hnoeq
    simp only [parse_set_cookie, hsplit, hnoeq]

/-- Witness for claim C4's drop rule: a set-cookie value with no
equals sign in its first segment parses to none. -/
theorem claim_C4_witness : parse_set_cookie ("sessiontoken".toList) = none :=
  claim_C4.2.1 ("sessiontoken".toList) ("sessiontoken".toList) [] (by decide) (by decide)

/-- Claim C5: for every raw header block, the canonicalized map's value
under a (case-sensitively matched) name is the ", "-join, in appearance
order, of the trimmed values of the non-status lines carrying that
trimmed name; lines beginning with HTTP/ set http_version (last one
winning over the "HTTP/1.1" default) and produce no map entry; and
case variants of a name stay separate entries. -/
theorem claim_C5 :
    (∀ (lines : List Str) (n : Str),
      mapGetStr (processHeaders lines).headers n =
        joinValuesOpt (lines.filterMap (headerValueOf n))) ∧
    (∀ lines : List Str,
      (processHeaders lines).http_version =
        ((lines.filterMap httpTokenOf).getLast?).getD ("HTTP/1.1".toList)) ∧
    mapGetStr (processHeaders ["HTTP/1.1 200 OK".toList, "X-Tag: 1".toList,
        "x-tag: 2".toList, "X-Tag: 3".toList]).headers ("X-Tag".toList) =
      some ("1, 3".toList) ∧
    mapGetStr (processHeaders ["HTTP/1.1 200 OK".toList, "X-Tag: 1".toList,
        "x-tag: 2".toList, "X-Tag: 3".toList]).headers ("x-tag".toList) =
      some ("2".toList) := by
  refine ⟨?_, ?_, by decide, by decide⟩
  · intro lines n
    unfold processHeaders
    rw [foldl_processHeaderLine_get]
    rfl
  · intro lines
    unfold processHeaders
    rw [foldl_processHeaderLine_version]

/-- Claim C6: a form-urlencoded body is built as the percent-encoded
key=value pairs joined by ampersands (with space consistently encoded
as +, the form-urlencoded convention), the injected Content-Type is
application/x-www-form-urlencoded, and the example fields a=1 2, b=x
encode to a=1+2&b=x. -/
theorem claim_C6 :
    (∀ (clock : Nat × Nat) (fields : List (Str × Str)),
      buildBody clock (BodyType.FormUrlEncoded fields) =
        { headers := ["Content-Type: application/x-www-form-urlencoded".toList],
          post_data := some (utf8Bytes (formUrlEncodedBody fields)),
          request_body_size := (utf8Bytes (formUrlEncodedBody fields)).length % 4294967296 }) ∧
    (∀ fields : List (Str × Str),
      formUrlEncodedBody fields =
        joinSep ("&".toList)
          (fields.map (fun kv => urlencoding kv.1 ++ "=".toList ++ urlencoding kv.2))) ∧
    urlencodeByte 32 = "+".toList ∧
    formUrlEncodedBody [("a".toList, "1 2".toList), ("b".toList, "x".toList)] =
      "a=1+2&b=x".toList :=
  ⟨fun _ _ => rfl, fun _ => rfl, by decide, by decide⟩

/-- Claim C7, counterexample: the claim says the multipart boundary
token differs between any two build calls and never collides within the
same millisecond.  The boundary is a fixed prefix plus the bare hex
concatenation of the clock's seconds and nanoseconds, so two distinct
clock readings can already produce the same boundary: reading
(secs 1, nanos 35 = 0x23) and reading (secs 18 = 0x12, nanos 3) both
yield the token ending 123; and two concurrent builds reading an
identical timestamp trivially collide. -/
theorem claim_C7_counterexample :
    multipartBoundary (1, 35) = multipartBoundary (18, 3) ∧
    (1, 35) ≠ ((18, 3) : Nat × Nat) :=
  ⟨by decide, by decide⟩

/-- Claim C7, amended: building a request body is deterministic in the
request and the clock reading (non-multipart bodies do not depend on
the clock at all); all clock dependence of a multipart build flows
through the boundary; and within one second, builds with distinct
nanosecond readings do get distinct boundaries, while identical or
hex-ambiguous readings collide. -/
theorem claim_C7_amended :
    (∀ (clk clk2 : Nat × Nat) (b : BodyType), isMultipartBody b = false →
      buildBody clk b = buildBody clk2 b) ∧
    (∀ (clk : Nat × Nat) (fields : List MultipartField),
      buildBody clk (BodyType.Multipart fields) =
        multipartBuilt (multipartBoundary clk) fields) ∧
    (∀ s n1 n2 : Nat, n1 ≠ n2 →
      multipartBoundary (s, n1) ≠ multipartBoundary (s, n2)) := by
  refine ⟨?_, fun clk fields => rfl, multipartBoundary_ne_of_nanos_ne⟩
  intro clk clk2 b hb
  cases b <;> first | rfl | simp [isMultipartBody] at hb

/-- Witness for claim C7's amended theorem: clock independence of a
body-free build, and distinct boundaries for nanosecond readings 0 and
1 in the same second. -/
theorem claim_C7_witness :
    buildBody (1, 2) BodyType.None = buildBody (3, 4) BodyType.None ∧
    multipartBoundary (0, 0) ≠ multipartBoundary (0, 1) :=
  ⟨claim_C7_amended.1 (1, 2) (3, 4) BodyType.None rfl,
   claim_C7_amended.2.2 0 0 1 (by decide)⟩

/-- Claim C8, counterexample: the claim says detected_content_type is
found by a case-insensitive lookup, so the casing CONTENT-TYPE is
found.  On the code the lookup tries exactly the keys content-type and
Content-Type: a response whose header is spelled CONTENT-TYPE is in the
canonicalized map under that spelling, yet the detected content type is
none. -/
theorem claim_C8_counterexample :
    mapGetStr (processHeaders ["HTTP/1.1 200 OK".toList,
        "CONTENT-TYPE: text/html".toList]).headers ("CONTENT-TYPE".toList) =
      some ("text/html".toList) ∧
    lookupContentType (processHeaders ["HTTP/1.1 200 OK".toList,
        "CONTENT-TYPE: text/html".toList]).headers = none :=
  ⟨by decide, by decide⟩

/-- Claim C8, amended: detected_content_type is the merged map value
under the exact key content-type, or else under the exact key
Content-Type, or none; any other casing is not found, and a repeated
content-type header yields the ", "-merged value, not the first-seen
value. -/
theorem claim_C8_amended :
    (∀ lines : List Str,
      lookupContentType (processHeaders lines).headers =
        (joinValuesOpt (lines.filterMap (headerValueOf ("content-type".toList)))).orElse
          (fun _ =>
            joinValuesOpt (lines.filterMap (headerValueOf ("Content-Type".toList))))) ∧
    lookupContentType (processHeaders ["HTTP/1.1 200 OK".toList,
        "Content-Type: text/html".toList, "Content-Type: text/plain".toList]).headers =
      some ("text/html, text/plain".toList) := by
  refine ⟨?_, by decide⟩
  intro lines
  unfold lookupContentType processHeaders
  rw [foldl_processHeaderLine_get, foldl_processHeaderLine_get]
  rfl

/-- Claim C9: for every content type (including absent) and every body,
the computed renderer list contains Raw and is non-empty, for any
behavior of the JSON parse oracle. -/
theorem claim_C9 (jsonOk : List Nat → Bool) (content_type : Option Str)
    (body : List Nat) :
    ResponseRenderer.Raw ∈ detect_renderers jsonOk content_type body ∧
    detect_renderers jsonOk content_type body ≠ [] := by
  obtain ⟨rest, h⟩ := detect_renderers_shape jsonOk content_type body
  rw [h]
  exact ⟨List.mem_cons_self _ _, List.cons_ne_nil _ _⟩

/-- A reqwest send outcome with a successful body collection, used in
closed instantiations. -/
def stubSendOut : LibV.SendOut :=
  { status := 200, headers := [("content-length".toList, "0".toList)],
    bytesResult := .ok [] }

/-- A reqwest client model that answers every send with stubSendOut. -/
def stubClient : LibV.RClient := { send := fun _ _ _ _ => .ok stubSendOut }

/-- Claim C10: in the reqwest-based executor variant, a request header
whose name or value fails validation is silently omitted: the
conversion drops exactly that entry (it never fails), the request
proceeds identically with the remaining headers, and when the transport
itself succeeds the command reports no error. -/
theorem claim_C10 :
    (∀ (parseName : Str → Option Str) (validValue : Str → Bool)
       (e1 e2 : List (Str × Str)) (k v : Str),
      parseName k = none ∨ validValue v = false →
      LibV.convert_headers parseName validValue (e1 ++ (k, v) :: e2) =
        LibV.convert_headers parseName validValue (e1 ++ e2)) ∧
    (∀ (J : Type) (client : LibV.RClient) (parseName : Str → Option Str)
       (validValue : Str → Bool) (jsonParse : List Nat → Option J) (elapsedMs : Nat)
       (m : LibV.LMethods) (url body : Str) (e1 e2 : List (Str × Str)) (k v : Str),
      parseName k = none ∨ validValue v = false →
      LibV.rest_request client parseName validValue jsonParse elapsedMs
          { method := m, url := url, headers := e1 ++ (k, v) :: e2, body := body } =
        LibV.rest_request client parseName validValue jsonParse elapsedMs
          { method := m, url := url, headers := e1 ++ e2, body := body }) ∧
    (∀ (J : Type) (client : LibV.RClient) (parseName : Str → Option Str)
       (validValue : Str → Bool) (jsonParse : List Nat → Option J) (elapsedMs : Nat)
       (req : LibV.LApiRequest) (sOut : LibV.SendOut) (bytes : List Nat),
      (∀ m u h b, client.send m u h b = .ok sOut) →
      sOut.bytesResult = .ok bytes →
      LibV.rest_request client parseName validValue jsonParse elapsedMs req =
        .ok { status := sOut.status, headers := sOut.headers,
              raw_body := utf8Lossy bytes, json_body := jsonParse bytes,
              time_ms := elapsedMs }) := by
  refine ⟨convert_headers_skip, ?_, ?_⟩
  · intro J client parseName validValue jsonParse elapsedMs m url body e1 e2 k v h
    unfold LibV.rest_request
    rw [convert_headers_skip parseName validValue e1 e2 k v h]
  · intro J client parseName validValue jsonParse elapsedMs req sOut bytes hsend hbytes
    rcases req with ⟨m, u, hdrs, bdy⟩
    cases m <;> simp [LibV.rest_request, hsend, hbytes]

/-- Witness for claim C10: with a name validator that rejects
everything, a request carrying one bad header equals the request
without it, and with the stub client the command returns the assembled
response, not an error. -/
theorem claim_C10_witness :
    LibV.rest_request (J := Unit) stubClient (fun _ => none) (fun _ => true)
        (fun _ => none) 5
        { method := .GET, url := "http://x".toList,
          headers := [("bad header".toList, "v".toList)], body := [] } =
      LibV.rest_request (J := Unit) stubClient (fun _ => none) (fun _ => true)
        (fun _ => none) 5
        { method := .GET, url := "http://x".toList, headers := [], body := [] } ∧
    LibV.rest_request (J := Unit) stubClient (fun _ => none) (fun _ => true)
        (fun _ => none) 5
        { method := .GET, url := "http://x".toList, headers := [], body := [] } =
      .ok { status := stubSendOut.status, headers := stubSendOut.headers,
            raw_body := utf8Lossy [], json_body := none, time_ms := 5 } :=
  ⟨claim_C10.2.1 Unit stubClient (fun _ => none) (fun _ => true) (fun _ => none) 5
      .GET ("http://x".toList) [] [] [] ("bad header".toList) ("v".toList) (Or.inl rfl),
   claim_C10.2.2 Unit stubClient (fun _ => none) (fun _ => true) (fun _ => none) 5
      { method := .GET, url := "http://x".toList, headers := [], body := [] }
      stubSendOut [] (fun _ _ _ _ => rfl) rfl⟩
